import Mathlib

/-!
Verification of the cpm configuration core: the layered config document,
the namespace/global setting resolver, the boolean-setting edit cycle,
document cleanup, provider add/remove, provider loading, and the command
dispatcher.  Each definition is a shallow embedding of the corresponding
JavaScript source (src/unnamed/part_002 config utility, src/lib/config.mjs
menu API, src/unnamed/part_001 dispatcher).
-/

namespace Cpm

/--
JSON-like runtime values as they occur in the config document: `null`,
booleans, strings and objects (ordered key/value entry lists, matching
JavaScript property-insertion order).  `none : Option Value` plays the
role of JavaScript `undefined` (absent), while `vNull` is a present `null`.
-/
inductive Value where
  | vNull : Value
  | vBool : Bool → Value
  | vStr : String → Value
  | vObj : List (String × Value) → Value

namespace Value

/-- JavaScript truthiness for the values our model covers
(`null`, `false` and `""` are falsy; every object is truthy). -/
def truthy : Value → Bool
  | vNull => false
  | vBool b => b
  | vStr s => !(s == "")
  | vObj _ => true

end Value

/-- First-match association-list lookup (JavaScript property read on an
object literal: the model keeps one entry per key, first wins). -/
def lookupEntry {α : Type} : List (String × α) → String → Option α
  | [], _ => none
  | (k, v) :: t, key => if k = key then some v else lookupEntry t key

/-- Property read `obj[key]`: `undefined` (`none`) unless the value is an
object holding the key.  Primitive receivers yield `undefined` for the
property names the config code uses. -/
def jsLookup (v : Value) (key : String) : Option Value :=
  match v with
  | .vObj l => lookupEntry l key
  | _ => none

/-- Optional-chaining step `o?.[key]`: propagate absence, then read. -/
def chain (o : Option Value) (key : String) : Option Value :=
  o.bind (fun v => jsLookup v key)

/-! ### Character-list string scanning
(executable stand-ins for the JavaScript string operations) -/

/-- Prefix test on character lists. -/
def listHasPrefix : List Char → List Char → Bool
  | _, [] => true
  | [], _ :: _ => false
  | a :: as, b :: bs => a == b && listHasPrefix as bs

/-- Substring search on character lists
(`String.prototype.includes`). -/
def listHasSub (l pat : List Char) : Bool :=
  if listHasPrefix l pat then true
  else
    match l with
    | [] => false
    | _ :: t => listHasSub t pat

/-- `s.includes(pat)`. -/
def hasSub (s pat : String) : Bool := listHasSub s.data pat.data

/-- Accumulator loop of single-character `String.prototype.split`. -/
def splitOnCharAux (sep : Char) : List Char → List Char → List String
  | [], acc => [String.mk acc.reverse]
  | c :: rest, acc =>
    if c == sep then String.mk acc.reverse :: splitOnCharAux sep rest []
    else splitOnCharAux sep rest (c :: acc)

/-- `s.split(sep)` for a one-character separator (the source only splits
on `"."` and, in the name pattern, on `"/"`). -/
def splitOnChar (sep : Char) (s : String) : List String :=
  splitOnCharAux sep s.data []

/-- `s.startsWith(pat)`. -/
def strStartsWith (s pat : String) : Bool := listHasPrefix s.data pat.data

/-- The resolver's fallback test, exactly the source condition
`nsVal === undefined || nsVal === null || nsVal === "global"`. -/
def needsFallback : Option Value → Bool
  | none => true
  | some .vNull => true
  | some (.vStr s) => s == "global"
  | some _ => false

/--
`resolveNamespaceSetting(cfg, ns, provider, key)` from the config utility
(src/unnamed/part_002): guard on falsy arguments, read
`cfg.namespaces?.[ns]?.[provider]?.[key]`, and fall back to
`cfg.global?.[provider]?.[key]` when that value is `undefined`, `null`
or the inherit sentinel string `"global"`.
-/
def resolveNamespaceSetting (cfg : Value) (ns provider key : String) : Option Value :=
  if !cfg.truthy || ns == "" || provider == "" || key == "" then none
  else
    let nsVal := chain (chain (chain (jsLookup cfg "namespaces") ns) provider) key
    if needsFallback nsVal then
      chain (chain (jsLookup cfg "global") provider) key
    else nsVal

/--
The resolver as the spec sentence words it: the namespace value is read at
`namespaces[N].providers[P][K]` (an extra `providers` level that the source
resolver does not traverse); fallback to `global[P][K]` on absence, `null`
or the inherit sentinel.  Kept only to compare with the source definition.
-/
def resolveSpecClaim (cfg : Value) (ns provider key : String) : Option Value :=
  let nsVal :=
    chain (chain (chain (chain (jsLookup cfg "namespaces") ns) "providers") provider) key
  if needsFallback nsVal then
    chain (chain (jsLookup cfg "global") provider) key
  else nsVal

/-! ### Dot-path get / set (config utility, src/unnamed/part_002) -/

/-- The dot-path loop of the `get` in the revision the spec cites
(src/unnamed/part_002 lines 171-184): the `return obj` statement sits
inside the `for` loop, so the walk returns right after the first path
segment (or `undefined` when that first segment is missing). -/
def getEarly (cfg : Value) : List String → Option Value
  | [] => none
  | p :: _ => jsLookup cfg p

/-- `get(key)` as cited by the spec: empty key returns the whole
document, otherwise split on `.` and run the (early-returning) loop. -/
def get (cfg : Value) (key : String) : Option Value :=
  if key == "" then some cfg else getEarly cfg (splitOnChar '.' key)

/-- The dot-path loop of the first-revision `get`
(src/unnamed/part_002 lines 61-74): walk every segment
(`if (obj && typeof obj === "object" && part in obj)`), returning
`undefined` at the first missing or non-object step. -/
def getWalk (cfg : Value) : List String → Option Value
  | [] => some cfg
  | p :: rest =>
    match jsLookup cfg p with
    | some v => getWalk v rest
    | none => none

/-- First-revision `get(key)` (the behavior both revisions' doc comments
describe: the value at the full path, or `undefined`). -/
def getFirstRev (cfg : Value) (key : String) : Option Value :=
  if key == "" then some cfg else getWalk cfg (splitOnChar '.' key)

/-- Property write `obj[k] = x` on an entry list: overwrite in place,
otherwise append (JavaScript property-insertion order). -/
def setEntry {α : Type} : List (String × α) → String → α → List (String × α)
  | [], k, x => [(k, x)]
  | (k', v') :: t, k, x =>
    if k' == k then (k, x) :: t else (k', v') :: setEntry t k x

/-- JavaScript `typeof v === "object"` (true for objects and for `null`). -/
def typeofObject : Value → Bool
  | .vObj _ => true
  | .vNull => true
  | _ => false

/-- The dot-path loop of `set` (src/unnamed/part_002 lines 212-225),
functionally: at every intermediate segment, a child that is absent or
not `typeof "object"` is replaced by a fresh empty object
(`obj[parts[i]] = {}`), then descent continues and the final segment is
assigned.  (A traversed `null` child would make the source throw on the
next `in` test, since `typeof null === "object"`; the model returns the
value unchanged there, and no claim exercises that path.) -/
def setPath (cfg : Value) : List String → Value → Value
  | [], _ => cfg
  | [p], x =>
    match cfg with
    | .vObj l => .vObj (setEntry l p x)
    | _ => cfg
  | p :: rest, x =>
    match cfg with
    | .vObj l =>
      let child :=
        match lookupEntry l p with
        | some c => if typeofObject c then c else .vObj []
        | none => .vObj []
      .vObj (setEntry l p (setPath child rest x))
    | _ => cfg

/-- `set(key, value)`: empty key is a no-op, otherwise split on `.` and
run the assignment walk. -/
def set (cfg : Value) (key : String) (x : Value) : Value :=
  if key == "" then cfg else setPath cfg (splitOnChar '.' key) x

/-! ### Boolean-setting edit cycle and callback gate
(`customSettings`, src/lib/config.mjs lines 465-538) -/

/-- The namespace-scope edit cycle for a boolean-kind setting:
`if (cur === true) next = false; else if (cur === false) next = "global";
else next = true`. -/
def cycleNamespaceScope : Value → Value
  | .vBool true => .vBool false
  | .vBool false => .vStr "global"
  | _ => .vBool true

/-- The global-scope edit cycle: `next = cur === true ? false : true`. -/
def cycleGlobalScope : Value → Value
  | .vBool true => .vBool false
  | _ => .vBool true

/-- Observable outcome of awaiting a provider-supplied setting callback:
a returned value, or a raised fault. -/
inductive CbOutcome where
  | ret : Value → CbOutcome
  | thrown : CbOutcome

/-- What the edit reported to the user. -/
inductive EditResult where
  | committed : EditResult
  | rejectedReason : String → EditResult
  | rejectedGeneric : EditResult
  | errored : EditResult
deriving DecidableEq, Repr

/-- The callback gate of a boolean-setting edit (src/lib/config.mjs
lines 504-522): commit `settings[action] = next` and save only when the
callback returned exactly `true`; surface a string return as the
rejection reason; report any other return as a generic rejection; and
catch a raised fault, in every non-commit case leaving the settings
object untouched. -/
def applyCallbackEdit (settings : List (String × Value)) (action : String)
    (next : Value) (cb : CbOutcome) : List (String × Value) × EditResult :=
  match cb with
  | .thrown => (settings, .errored)
  | .ret v =>
    match v with
    | .vBool true => (setEntry settings action next, .committed)
    | .vStr s => (settings, .rejectedReason s)
    | _ => (settings, .rejectedGeneric)

/-! ### Typed config document (schema of src/lib/config.mjs) -/

/-- One provider's settings object: setting key → value. -/
abbrev Settings := List (String × Value)

/-- A `providers` sub-object of a scope: provider id → settings object. -/
abbrev ProvMap := List (String × Settings)

/-- A namespace object `config.namespaces[ns]`: its optional `providers`
sub-object plus its remaining keys. -/
structure NsObj where
  providers : Option ProvMap
  others : List (String × Value)

/-- The `config.global` object: its optional `providers` sub-object plus
its remaining keys (old-schema per-provider entries such as `github`). -/
structure GlobalObj where
  providers : Option ProvMap
  others : List (String × Value)

/-- The config document as src/lib/config.mjs manipulates it.
`providers = none` models a document whose `providers` array is absent
(`Array.isArray(config.providers)` false). -/
structure Config where
  passcode : Value
  global : GlobalObj
  namespaces : List (String × NsObj)
  providers : Option (List String)

/-! ### `ConfigAPI.cleanup` (src/lib/config.mjs lines 849-892) -/

/-- The per-entry pass over a `providers` sub-object: keep an entry iff
its key holds `"cpm-"` and its settings object is non-empty
(`delete` on `!key.includes("cpm-")`, then on
`Object.keys(obj[key]).length === 0`). -/
def cleanupProvMap (m : ProvMap) : ProvMap :=
  m.filter (fun e => hasSub e.1 "cpm-" && !e.2.isEmpty)

/-- After filtering, an emptied `providers` sub-object is itself deleted
(`if (Object.keys(...).length === 0) delete ...providers`). -/
def cleanupProvOpt (o : Option ProvMap) : Option ProvMap :=
  match o with
  | none => none
  | some m =>
    let m' := cleanupProvMap m
    if m'.isEmpty then none else some m'

/-- The empty-object test of cleanup's second pass
(`typeof v === "object" && Object.keys(v).length === 0`; a `null` entry
at these positions would make the source throw inside `Object.keys`,
and the typed document has none). -/
def isEmptyObjVal : Value → Bool
  | .vObj l => l.isEmpty
  | _ => false

/-- Cleanup of `config.global`: filter `global.providers`, then delete
every other key whose value is an empty object. -/
def cleanupGlobal (g : GlobalObj) : GlobalObj :=
  { providers := cleanupProvOpt g.providers
    others := g.others.filter (fun e => !isEmptyObjVal e.2) }

/-- Cleanup of one namespace object, same two passes as for `global`.
The namespace itself is never removed, even when left empty. -/
def cleanupNs (n : NsObj) : NsObj :=
  { providers := cleanupProvOpt n.providers
    others := n.others.filter (fun e => !isEmptyObjVal e.2) }

/-- `ConfigAPI.cleanup(config)`: clean `global.providers`, `global`,
every namespace, and filter the `providers` array to entries holding
`"cpm-"` (an absent array is left absent). -/
def cleanup (c : Config) : Config :=
  { passcode := c.passcode
    global := cleanupGlobal c.global
    namespaces := c.namespaces.map (fun e => (e.1, cleanupNs e.2))
    providers := c.providers.map (fun l => l.filter (fun s => hasSub s "cpm-")) }

/-! ### Adding a custom provider (src/lib/config.mjs lines 192-224) -/

/-- The character class `[\w-]` of the provider-name pattern. -/
def isWordDash (c : Char) : Bool := c.isAlphanum || c == '_' || c == '-'

/-- The `cpm-<name>` arm `/^cpm-[\w-]+$/`. -/
def isBareCpmName (s : String) : Bool :=
  strStartsWith s "cpm-" && !(s.data.drop 4).isEmpty && (s.data.drop 4).all isWordDash

/-- The full validation `/^cpm-[\w-]+$|^@[^/]+\/cpm-[\w-]+$/`
(src/lib/config.mjs line 198): a bare `cpm-<name>`, or `@<scope>/cpm-<name>`
with a non-empty scope holding no slash. -/
def validProviderName (s : String) : Bool :=
  isBareCpmName s ||
    (match splitOnChar '/' s with
     | [scope, rest] =>
       strStartsWith scope "@" && decide (1 < scope.data.length) && isBareCpmName rest
     | _ => false)

/-- Seeding of one scope's `providers` sub-object on a successful add:
create it when missing, then create an empty settings object for the new
id unless one is already present (`if (!...[newProvider]) ... = {}`). -/
def seedProv (o : Option ProvMap) (id : String) : ProvMap :=
  let m := o.getD []
  match lookupEntry m id with
  | some _ => m
  | none => m ++ [(id, [])]

/-- Outcome reported by the add-custom-provider flow. -/
inductive AddResult where
  | invalidName : AddResult
  | alreadyPresent : AddResult
  | installFailed : AddResult
  | added : AddResult
deriving DecidableEq, Repr

/-- The add-custom-provider flow (src/lib/config.mjs lines 192-224), the
npm-install outcome supplied as an oracle: validate the name; initialize
a missing `providers` array; reject a duplicate; reject a failed
install; otherwise append the id, seed an empty settings object under
`global.providers` and under every namespace's `providers`, and run
`cleanup` before saving. -/
def addCustomProvider (c : Config) (id : String) (installOk : Bool) :
    Config × AddResult :=
  if !validProviderName id then (c, .invalidName)
  else
    let c1 :=
      match c.providers with
      | none => { c with providers := some [] }
      | some _ => c
    if (c1.providers.getD []).contains id then (c1, .alreadyPresent)
    else if !installOk then (c1, .installFailed)
    else
      let c2 : Config :=
        { passcode := c1.passcode
          global := { c1.global with providers := some (seedProv c1.global.providers id) }
          namespaces := c1.namespaces.map
            (fun e => (e.1, { e.2 with providers := some (seedProv e.2.providers id) }))
          providers := some (c1.providers.getD [] ++ [id]) }
      (cleanup c2, .added)

/-! ### Removing a provider (src/lib/config.mjs lines 748-757) -/

/-- `delete m[id]` on an entry list. -/
def removeEntry {α : Type} (l : List (String × α)) (id : String) : List (String × α) :=
  l.filter (fun e => !(e.1 == id))

/-- The confirmed branch of the Remove Provider menu: filter the id out
of `config.providers`, delete its entry from `global.providers` (when
that sub-object exists) and from every namespace's `providers`. -/
def removeProvider (c : Config) (id : String) : Config :=
  { passcode := c.passcode
    global := { c.global with providers := c.global.providers.map (fun m => removeEntry m id) }
    namespaces := c.namespaces.map
      (fun e => (e.1, { e.2 with providers := e.2.providers.map (fun m => removeEntry m id) }))
    providers := c.providers.map (fun l => l.filter (fun p => !(p == id))) }

/-! ### Provider loading (src/unnamed/part_002 lines 235-256) -/

/-- Recursive translation of the `getProviders` loop with its
per-provider `try`/`catch`: a load failure (`.error`) is skipped — the
entry is dropped and the walk continues — and never re-raised, which is
why the embedding is total with a plain list result. -/
def getProvidersList {μ : Type} (load : String → Except String μ) :
    List String → List (String × μ)
  | [] => []
  | p :: rest =>
    match load p with
    | .ok m => (p, m) :: getProvidersList load rest
    | .error _ => getProvidersList load rest

/-- `getProviders(config)`: `Array.isArray(config.providers)` guard, then
the loading loop. -/
def getProviders {μ : Type} (load : String → Except String μ)
    (providers : Option (List String)) : List (String × μ) :=
  getProvidersList load (providers.getD [])

/-! ### Command dispatch (src/unnamed/part_001 lines 15-23) -/

/-- Observable behavior of one provider command method: terminate
normally, or raise. -/
inductive CmdBehavior where
  | ok : CmdBehavior
  | throws : CmdBehavior
deriving DecidableEq, Repr

/-- A loaded provider module as the dispatcher sees it: its name and its
command table `provider.command`. -/
structure Provider where
  name : String
  command : List (String × CmdBehavior)

/-- `typeof provider.command?.[method] === "function"`. -/
def Provider.exposes (p : Provider) (m : String) : Bool :=
  (lookupEntry p.command m).isSome

/-- Whether invoking `method` on this provider raises. -/
def Provider.throwsOn (p : Provider) (m : String) : Bool :=
  match lookupEntry p.command m with
  | some .throws => true
  | _ => false

/-- `runCommand(method, opts)`: walk the loaded providers in order,
invoking `provider.command[method](opts)` whenever the method is exposed
and awaiting each call before the next.  Returns the invocation trace
(provider name paired with the opts value it received) and, when a call
raised, the raising provider's name — the dispatcher has no `catch`, so
the walk stops there and the fault propagates to the caller. -/
def runCommand (providers : List Provider) (method : String) (opts : Value) :
    List (String × Value) × Option String :=
  match providers with
  | [] => ([], none)
  | p :: rest =>
    match lookupEntry p.command method with
    | none => runCommand rest method opts
    | some .ok =>
      let r := runCommand rest method opts
      ((p.name, opts) :: r.1, r.2)
    | some .throws => ([(p.name, opts)], some p.name)

/-! ### Example documents used as concrete instances -/

/-- Document whose namespace setting sits at the spec's path
`namespaces["@foo"].providers["github"].publish` while the global value
disagrees with it. -/
def cfgProvidersLevel : Value :=
  .vObj [("global", .vObj [("github", .vObj [("publish", .vBool true)])]),
    ("namespaces", .vObj [("@foo", .vObj
      [("providers", .vObj [("github", .vObj [("publish", .vBool false)])])])])]

/-- Document with a `null` namespace token and a concrete global token. -/
def cfgNullToken : Value :=
  .vObj [("global", .vObj [("github", .vObj [("token", .vStr "abc")])]),
    ("namespaces", .vObj [("@foo", .vObj [("github", .vObj [("token", .vNull)])])])]

/-- The sentinel scenario: `namespaces["@foo"].github.publish = "global"`,
`global.github.publish = true`. -/
def cfgSentinel : Value :=
  .vObj [("global", .vObj [("github", .vObj [("publish", .vBool true)])]),
    ("namespaces", .vObj [("@foo", .vObj [("github", .vObj [("publish", .vStr "global")])])])]

/-- The fresh default document shape created by `load()`. -/
def freshDoc : Value :=
  .vObj [("passcode", .vNull),
    ("global", .vObj
      [("github", .vObj [("token", .vNull), ("publish", .vBool true), ("releases", .vBool true)]),
       ("npm", .vObj [("token", .vNull), ("publish", .vBool true), ("allowPrivate", .vBool false)])]),
    ("namespaces", .vObj [])]

/-- `freshDoc` after `set("global.github.token", "abc123")`. -/
def freshDocWithToken : Value := set freshDoc "global.github.token" (.vStr "abc123")

/-- The `global` object of `freshDoc`. -/
def freshGlobal : Value :=
  .vObj [("github", .vObj [("token", .vNull), ("publish", .vBool true), ("releases", .vBool true)]),
    ("npm", .vObj [("token", .vNull), ("publish", .vBool true), ("allowPrivate", .vBool false)])]

/-- The `global` object of `freshDocWithToken`. -/
def freshGlobalWithToken : Value :=
  .vObj [("github", .vObj [("token", .vStr "abc123"), ("publish", .vBool true),
    ("releases", .vBool true)]),
    ("npm", .vObj [("token", .vNull), ("publish", .vBool true), ("allowPrivate", .vBool false)])]

/-! ### Helper lemmas -/

theorem needsFallback_eq_true_iff (o : Option Value) :
    needsFallback o = true ↔
      o = none ∨ o = some .vNull ∨ o = some (.vStr "global") := by
  cases o with
  | none => simp [needsFallback]
  | some v => cases v <;> simp [needsFallback]

theorem filter_idem {α : Type} (p : α → Bool) (l : List α) :
    (l.filter p).filter p = l.filter p := by
  induction l with
  | nil => rfl
  | cons a t ih =>
    by_cases h : p a <;> simp [List.filter_cons, h, ih]

/-!
Claim C1 — the resolver's one-level fallback.  The source resolver reads
the namespace value at `namespaces[ns][provider][key]`, without the
`providers` level the claim names, so the claim as stated fails; the
amended statement (same fallback rule at the path the code reads) holds.
-/

/-- Claim C1 (counterexample): in `cfgProvidersLevel` the value at the
claim's path `namespaces["@foo"].providers["github"].publish` is the
concrete `false`, so the claim predicts `resolve` returns `false`; the
source resolver never traverses the `providers` level, finds nothing at
`namespaces["@foo"]["github"]`, and falls back to the global `true`. -/
theorem resolve_providersLevel_counterexample :
    chain (chain (chain (chain (jsLookup cfgProvidersLevel "namespaces") "@foo")
        "providers") "github") "publish" = some (.vBool false) ∧
    resolveNamespaceSetting cfgProvidersLevel "@foo" "github" "publish" = some (.vBool true) ∧
    resolveNamespaceSetting cfgProvidersLevel "@foo" "github" "publish" ≠ some (.vBool false) := by
  refine ⟨rfl, rfl, ?_⟩
  intro h
  have h2 : Value.vBool true = Value.vBool false :=
    Option.some.inj ((rfl :
      resolveNamespaceSetting cfgProvidersLevel "@foo" "github" "publish" =
        some (.vBool true)).symm.trans h)
  simp at h2

/-- Claim C1 (amended): for every truthy document and nonempty namespace,
provider and key, if the namespace value `namespaces[N][P][K]` (the path
the resolver reads — no intermediate `providers` level) is absent, null
or the sentinel `"global"`, then resolving returns `global[P][K]`;
otherwise it returns the namespace value itself — exactly one level of
fallback. -/
theorem resolve_one_level_fallback (cfg : Value) (ns provider key : String)
    (hc : cfg.truthy = true) (hns : ns ≠ "") (hp : provider ≠ "") (hk : key ≠ "") :
    ((chain (chain (chain (jsLookup cfg "namespaces") ns) provider) key = none ∨
      chain (chain (chain (jsLookup cfg "namespaces") ns) provider) key = some .vNull ∨
      chain (chain (chain (jsLookup cfg "namespaces") ns) provider) key = some (.vStr "global")) →
      resolveNamespaceSetting cfg ns provider key =
        chain (chain (jsLookup cfg "global") provider) key) ∧
    (∀ v, chain (chain (chain (jsLookup cfg "namespaces") ns) provider) key = some v →
      v ≠ .vNull → v ≠ .vStr "global" →
      resolveNamespaceSetting cfg ns provider key = some v) := by
  have hguard : (!cfg.truthy || ns == "" || provider == "" || key == "") = false := by
    simp [hc, hns, hp, hk]
  constructor
  · intro h
    have hnf : needsFallback
        (chain (chain (chain (jsLookup cfg "namespaces") ns) provider) key) = true :=
      (needsFallback_eq_true_iff _).mpr h
    simp [resolveNamespaceSetting, hguard, hnf]
  · intro v hv h1 h2
    have hnf : needsFallback
        (chain (chain (chain (jsLookup cfg "namespaces") ns) provider) key) = false := by
      rw [hv]
      cases v with
      | vNull => exact absurd rfl h1
      | vBool b => simp [needsFallback]
      | vObj l => simp [needsFallback]
      | vStr s =>
        have hs : s ≠ "global" := fun hh => h2 (by rw [hh])
        simp [needsFallback, hs]
    rw [hv] at hnf
    simp [resolveNamespaceSetting, hguard, hnf, hv]

/-- Witness for C1's amended theorem at the spec's sentinel scenario:
`namespaces["@foo"].github.publish = "global"` resolves to the global
`true`. -/
theorem resolve_one_level_fallback_witness :
    resolveNamespaceSetting cfgSentinel "@foo" "github" "publish" = some (.vBool true) := by
  have h := (resolve_one_level_fallback cfgSentinel "@foo" "github" "publish" rfl
      (by decide) (by decide) (by decide)).1 (Or.inr (Or.inr rfl))
  rw [h]
  rfl

/-!
Claim C2 — secret non-inheritance.  The source resolver has no
special case for secret keys: a `null` (or absent) namespace token falls
back to the global token like any boolean setting, so the claim fails;
the amended statement records the uniform fallback.
-/

/-- Claim C2 (counterexample): in `cfgNullToken` the namespace token is
a present `null`, which the claim calls authoritative; the resolver
substitutes the global token `"abc"` instead. -/
theorem resolve_secret_counterexample :
    chain (chain (chain (jsLookup cfgNullToken "namespaces") "@foo") "github") "token" =
      some .vNull ∧
    resolveNamespaceSetting cfgNullToken "@foo" "github" "token" = some (.vStr "abc") ∧
    resolveNamespaceSetting cfgNullToken "@foo" "github" "token" ≠ some .vNull := by
  refine ⟨rfl, rfl, ?_⟩
  intro h
  have h2 : Value.vStr "abc" = Value.vNull :=
    Option.some.inj ((rfl :
      resolveNamespaceSetting cfgNullToken "@foo" "github" "token" =
        some (.vStr "abc")).symm.trans h)
  simp at h2

/-- Claim C2 (amended): the resolver treats a secret-kind key exactly
like any other key — when the namespace token value is absent, null or
the sentinel, the global token is substituted; a null namespace token is
not authoritative. -/
theorem resolve_secret_uses_fallback (cfg : Value) (ns provider : String)
    (hc : cfg.truthy = true) (hns : ns ≠ "") (hp : provider ≠ "")
    (h : chain (chain (chain (jsLookup cfg "namespaces") ns) provider) "token" = none ∨
      chain (chain (chain (jsLookup cfg "namespaces") ns) provider) "token" = some .vNull ∨
      chain (chain (chain (jsLookup cfg "namespaces") ns) provider) "token" =
        some (.vStr "global")) :
    resolveNamespaceSetting cfg ns provider "token" =
      chain (chain (jsLookup cfg "global") provider) "token" := by
  have hnf : needsFallback
      (chain (chain (chain (jsLookup cfg "namespaces") ns) provider) "token") = true :=
    (needsFallback_eq_true_iff _).mpr h
  simp [resolveNamespaceSetting, hnf, hc, hns, hp]

/-- Witness for C2's amended theorem: the null namespace token of
`cfgNullToken` resolves to the global `"abc"`. -/
theorem resolve_secret_uses_fallback_witness :
    resolveNamespaceSetting cfgNullToken "@foo" "github" "token" = some (.vStr "abc") := by
  have h := resolve_secret_uses_fallback cfgNullToken "@foo" "github" rfl
    (by decide) (by decide) (Or.inr (Or.inl rfl))
  rw [h]
  rfl

/-!
Claim C3 — cycle totality of the boolean-setting edit cycle.
-/

/-- Claim C3: on the boolean-kind value domain, the namespace-scope edit
cycle returns to the original value after three steps
(`true → false → "global" → true`), and the global-scope cycle after two
(`true → false → true`). -/
theorem cycle_totality (v : Value) :
    ((v = .vBool true ∨ v = .vBool false ∨ v = .vStr "global") →
      cycleNamespaceScope (cycleNamespaceScope (cycleNamespaceScope v)) = v) ∧
    ((v = .vBool true ∨ v = .vBool false) →
      cycleGlobalScope (cycleGlobalScope v) = v) := by
  constructor
  · rintro (rfl | rfl | rfl) <;> rfl
  · rintro (rfl | rfl) <;> rfl

/-- Witness for C3 at the concrete value `true`. -/
theorem cycle_totality_witness :
    cycleNamespaceScope (cycleNamespaceScope (cycleNamespaceScope (.vBool true))) =
      Value.vBool true ∧
    cycleGlobalScope (cycleGlobalScope (.vBool true)) = Value.vBool true :=
  ⟨(cycle_totality (.vBool true)).1 (Or.inl rfl),
   (cycle_totality (.vBool true)).2 (Or.inl rfl)⟩

/-!
Claim C4 — idempotence of `ConfigAPI.cleanup`.
-/

theorem cleanupProvMap_idem (m : ProvMap) :
    cleanupProvMap (cleanupProvMap m) = cleanupProvMap m :=
  filter_idem _ m

theorem cleanupProvOpt_idem (o : Option ProvMap) :
    cleanupProvOpt (cleanupProvOpt o) = cleanupProvOpt o := by
  cases o with
  | none => rfl
  | some m =>
    by_cases h : (cleanupProvMap m).isEmpty
    · simp [cleanupProvOpt, h]
    · simp [cleanupProvOpt, h, cleanupProvMap_idem m]

theorem cleanupGlobal_idem (g : GlobalObj) :
    cleanupGlobal (cleanupGlobal g) = cleanupGlobal g := by
  cases g with
  | mk p o => simp [cleanupGlobal, cleanupProvOpt_idem, filter_idem]

theorem cleanupNs_idem (n : NsObj) : cleanupNs (cleanupNs n) = cleanupNs n := by
  cases n with
  | mk p o => simp [cleanupNs, cleanupProvOpt_idem, filter_idem]

theorem map_cleanupNs_idem (l : List (String × NsObj)) :
    (l.map (fun e => (e.1, cleanupNs e.2))).map (fun e => (e.1, cleanupNs e.2)) =
      l.map (fun e => (e.1, cleanupNs e.2)) := by
  induction l with
  | nil => rfl
  | cons a t ih => simp [ih, cleanupNs_idem]

/-- Claim C4: `cleanup` is idempotent — cleaning an already-cleaned
document changes nothing, for every document of the config schema. -/
theorem cleanup_idempotent (c : Config) : cleanup (cleanup c) = cleanup c := by
  cases c with
  | mk pc g nss ps =>
    simp only [cleanup, cleanupGlobal_idem, map_cleanupNs_idem]
    cases ps with
    | none => simp
    | some l => simp [filter_idem]

/-!
Claim C5 — dot-path set/get round trip.  The revision the spec cites
placed the loop's final `return obj` inside the `for` body, so `get`
returns right after the first path segment; its own doc comment (and the
first revision's loop) promise the value at the full path.  The claim is
right and the cited code is a slip.
-/

/-- Claim C5 (code bug, evaluated): after
`set("global.github.token", "abc123")`, the cited `get` returns the
whole `global` object — not `"abc123"` — and `get` of the nonexistent
path also returns that object instead of `undefined`; the first
revision's loop (which matches both revisions' doc comments) returns
`"abc123"` and `undefined` as the claim states. -/
theorem get_early_return_bug :
    get freshDocWithToken "global.github.token" = jsLookup freshDocWithToken "global" ∧
    get freshDocWithToken "global.github.token" ≠ some (.vStr "abc123") ∧
    getFirstRev freshDocWithToken "global.github.token" = some (.vStr "abc123") ∧
    get freshDoc "global.github.nonexistent" = jsLookup freshDoc "global" ∧
    get freshDoc "global.github.nonexistent" ≠ none ∧
    getFirstRev freshDoc "global.github.nonexistent" = none := by
  refine ⟨rfl, ?_, rfl, rfl, ?_, rfl⟩
  · intro h
    have h2 : freshGlobalWithToken = Value.vStr "abc123" :=
      Option.some.inj ((rfl : get freshDocWithToken "global.github.token" =
        some freshGlobalWithToken).symm.trans h)
    simp [freshGlobalWithToken] at h2
  · intro h
    exact Option.noConfusion ((rfl : get freshDoc "global.github.nonexistent" =
      some freshGlobal).symm.trans h)

/-!
Claim C6 — the provider-callback gate of a boolean-setting edit.
-/

/-- Claim C6: with a callback present, the edit commits exactly when the
callback returns boolean `true`; a string return is surfaced as that
rejection reason, any other non-`true` return (in particular every
non-string falsy value) is a generic rejection, a raised fault is caught
as an error report, and in every non-commit case the settings object is
left untouched. -/
theorem callback_gate_spec (settings : List (String × Value)) (action : String)
    (next : Value) (cb : CbOutcome) :
    ((applyCallbackEdit settings action next cb).2 = .committed ↔
      cb = .ret (.vBool true)) ∧
    (cb = .ret (.vBool true) →
      applyCallbackEdit settings action next cb = (setEntry settings action next, .committed)) ∧
    (∀ s, cb = .ret (.vStr s) →
      applyCallbackEdit settings action next cb = (settings, .rejectedReason s)) ∧
    (∀ v, cb = .ret v → v.truthy = false → (∀ s, v ≠ .vStr s) →
      applyCallbackEdit settings action next cb = (settings, .rejectedGeneric)) ∧
    (cb = .thrown → applyCallbackEdit settings action next cb = (settings, .errored)) ∧
    ((applyCallbackEdit settings action next cb).2 ≠ .committed →
      (applyCallbackEdit settings action next cb).1 = settings) := by
  cases cb with
  | thrown => simp [applyCallbackEdit]
  | ret v =>
    cases v with
    | vNull => simp [applyCallbackEdit]
    | vBool b => cases b <;> simp [applyCallbackEdit, Value.truthy]
    | vStr s => simp [applyCallbackEdit]
    | vObj l => simp [applyCallbackEdit]

/-- Witness for C6: a string-returning callback leaves the settings
object unchanged and surfaces the reason; a raised fault likewise leaves
it unchanged; a `true` return commits. -/
theorem callback_gate_spec_witness :
    applyCallbackEdit [("publish", Value.vBool true)] "publish" (.vBool false)
      (.ret (.vStr "no token")) = ([("publish", Value.vBool true)], .rejectedReason "no token") ∧
    applyCallbackEdit [("publish", Value.vBool true)] "publish" (.vBool false) .thrown =
      ([("publish", Value.vBool true)], .errored) ∧
    applyCallbackEdit [("publish", Value.vBool true)] "publish" (.vBool false)
      (.ret (.vBool true)) = ([("publish", Value.vBool false)], .committed) := by
  refine ⟨?_, ?_, ?_⟩
  · exact (callback_gate_spec [("publish", Value.vBool true)] "publish" (.vBool false)
      (.ret (.vStr "no token"))).2.2.1 "no token" rfl
  · exact (callback_gate_spec [("publish", Value.vBool true)] "publish" (.vBool false)
      .thrown).2.2.2.2.1 rfl
  · have h := (callback_gate_spec [("publish", Value.vBool true)] "publish" (.vBool false)
      (.ret (.vBool true))).2.1 rfl
    rw [h]
    rfl

/-!
Claim C7 — provider add rejects an invalid or duplicate identifier
without mutating the document.
-/

/-- Claim C7: adding a custom provider whose identifier fails the
`cpm-<name>` / `@scope/cpm-<name>` pattern reports the validation
failure and returns the document unchanged — providers array, global
and namespace settings, passcode, everything; the same holds when the
identifier is already listed in `config.providers`. -/
theorem addProvider_rejects_without_mutation (c : Config) (id : String) (installOk : Bool) :
    (validProviderName id = false →
      addCustomProvider c id installOk = (c, .invalidName)) ∧
    (∀ l, validProviderName id = true → c.providers = some l → l.contains id = true →
      addCustomProvider c id installOk = (c, .alreadyPresent)) := by
  constructor
  · intro h
    simp [addCustomProvider, h]
  · intro l hv hp hmem
    have hmem2 : id ∈ l := by simpa using hmem
    simp [addCustomProvider, hv, hp, hmem2]

/-- Witness for C7: `"bad name"` is rejected as invalid and `"cpm-github"`
as already present, in both cases leaving the concrete document
untouched. -/
theorem addProvider_rejects_without_mutation_witness :
    addCustomProvider
      ⟨.vNull, ⟨some [("cpm-github", [("token", .vNull)])], []⟩, [], some ["cpm-github"]⟩
      "bad name" true =
      (⟨.vNull, ⟨some [("cpm-github", [("token", .vNull)])], []⟩, [], some ["cpm-github"]⟩,
        .invalidName) ∧
    addCustomProvider
      ⟨.vNull, ⟨some [("cpm-github", [("token", .vNull)])], []⟩, [], some ["cpm-github"]⟩
      "cpm-github" true =
      (⟨.vNull, ⟨some [("cpm-github", [("token", .vNull)])], []⟩, [], some ["cpm-github"]⟩,
        .alreadyPresent) := by
  constructor
  · exact (addProvider_rejects_without_mutation
      ⟨.vNull, ⟨some [("cpm-github", [("token", .vNull)])], []⟩, [], some ["cpm-github"]⟩
      "bad name" true).1 rfl
  · exact (addProvider_rejects_without_mutation
      ⟨.vNull, ⟨some [("cpm-github", [("token", .vNull)])], []⟩, [], some ["cpm-github"]⟩
      "cpm-github" true).2 ["cpm-github"] rfl rfl rfl

/-!
Claim C8 — sequential fail-fast command dispatch.
-/

theorem throwsOn_true_iff (p : Provider) (m : String) :
    p.throwsOn m = true ↔ lookupEntry p.command m = some .throws := by
  unfold Provider.throwsOn
  cases h : lookupEntry p.command m with
  | none => simp
  | some b => cases b <;> simp

theorem runCommand_no_throw (ps : List Provider) (m : String) (opts : Value)
    (h : ∀ p ∈ ps, p.throwsOn m = false) :
    runCommand ps m opts =
      ((ps.filter (fun p => p.exposes m)).map (fun p => (p.name, opts)), none) := by
  induction ps with
  | nil => rfl
  | cons p t ih =>
    have hp : p.throwsOn m = false := h p (List.mem_cons_self p t)
    have ht : ∀ q ∈ t, q.throwsOn m = false := fun q hq => h q (List.mem_cons_of_mem _ hq)
    cases hlk : lookupEntry p.command m with
    | none =>
      have hexp : p.exposes m = false := by simp [Provider.exposes, hlk]
      simp [runCommand, hlk, List.filter_cons, hexp, ih ht]
    | some b =>
      cases b with
      | ok =>
        have hexp : p.exposes m = true := by simp [Provider.exposes, hlk]
        simp [runCommand, hlk, List.filter_cons, hexp, ih ht]
      | throws =>
        exact absurd ((throwsOn_true_iff p m).mpr hlk) (by simp [hp])

theorem runCommand_throw_prefix (m : String) (opts : Value) (p : Provider)
    (l2 : List Provider) (hp : p.throwsOn m = true) :
    ∀ l1, (∀ q ∈ l1, q.throwsOn m = false) →
      runCommand (l1 ++ p :: l2) m opts =
        ((l1.filter (fun q => q.exposes m)).map (fun q => (q.name, opts)) ++ [(p.name, opts)],
          some p.name) := by
  intro l1
  induction l1 with
  | nil =>
    intro _
    have hlk : lookupEntry p.command m = some .throws := (throwsOn_true_iff p m).mp hp
    simp [runCommand, hlk]
  | cons q t ih =>
    intro h
    have hq : q.throwsOn m = false := h q (List.mem_cons_self q t)
    have ht : ∀ r ∈ t, r.throwsOn m = false := fun r hr => h r (List.mem_cons_of_mem _ hr)
    cases hlk : lookupEntry q.command m with
    | none =>
      have hexp : q.exposes m = false := by simp [Provider.exposes, hlk]
      simp [runCommand, hlk, List.filter_cons, hexp, ih ht]
    | some b =>
      cases b with
      | ok =>
        have hexp : q.exposes m = true := by simp [Provider.exposes, hlk]
        simp [runCommand, hlk, List.filter_cons, hexp, ih ht]
      | throws =>
        exact absurd ((throwsOn_true_iff q m).mpr hlk) (by simp [hq])

/-- Claim C8: the dispatcher invokes `method` with the same opts on each
provider exposing it, strictly in list order; when no invoked command
raises, every exposing provider is invoked in order and no fault is
reported; when a provider raises after a fault-free prefix, the trace
stops at that provider — later providers are never invoked — and the
fault propagates uncaught (returned as the pending fault). -/
theorem runCommand_sequential_fail_fast (ps : List Provider) (m : String) (opts : Value) :
    ((∀ p ∈ ps, p.throwsOn m = false) →
      runCommand ps m opts =
        ((ps.filter (fun p => p.exposes m)).map (fun p => (p.name, opts)), none)) ∧
    (∀ l1 p l2, ps = l1 ++ p :: l2 → p.throwsOn m = true →
      (∀ q ∈ l1, q.throwsOn m = false) →
      runCommand ps m opts =
        ((l1.filter (fun q => q.exposes m)).map (fun q => (q.name, opts)) ++ [(p.name, opts)],
          some p.name)) := by
  constructor
  · exact runCommand_no_throw ps m opts
  · intro l1 p l2 hps hp hl1
    rw [hps]
    exact runCommand_throw_prefix m opts p l2 hp l1 hl1

/-- Provider whose `install` raises. -/
def provRaising : Provider := ⟨"cpm-a", [("install", .throws)]⟩

/-- Provider whose `install` succeeds. -/
def provFine : Provider := ⟨"cpm-b", [("install", .ok)]⟩

/-- Witness for C8 at the spec's scenario: two providers, the first
raises during `install`, so the second is never invoked and the fault
propagates. -/
theorem runCommand_sequential_fail_fast_witness :
    runCommand [provRaising, provFine] "install" .vNull =
      ([("cpm-a", Value.vNull)], some "cpm-a") := by
  have h := (runCommand_sequential_fail_fast [provRaising, provFine] "install" .vNull).2
    [] provRaising [provFine] rfl rfl (by intro q hq; simp at hq)
  simpa [provRaising] using h

/-!
Claim C9 — provider loading skips failures and never raises.
-/

/-- Claim C9: the loading walk returns exactly the `{id, module}` pairs
of the identifiers whose load succeeded, in order; every identifier
whose load raised is absent from the result (the failure is caught and
the provider skipped — the walk itself is total and never re-raises, as
its plain list result type records); and every returned pair really is
a listed identifier with its successfully loaded module. -/
theorem getProviders_spec {μ : Type} (load : String → Except String μ) (ps : List String) :
    getProvidersList load ps =
      ps.filterMap (fun p =>
        match load p with
        | .ok mo => some (p, mo)
        | .error _ => none) ∧
    (∀ p e, load p = .error e → ∀ mo, (p, mo) ∉ getProvidersList load ps) ∧
    (∀ p mo, (p, mo) ∈ getProvidersList load ps → p ∈ ps ∧ load p = .ok mo) := by
  have h1 : getProvidersList load ps =
      ps.filterMap (fun p =>
        match load p with
        | .ok mo => some (p, mo)
        | .error _ => none) := by
    induction ps with
    | nil => rfl
    | cons p t ih =>
      cases h : load p <;> simp [getProvidersList, List.filterMap_cons, h, ih]
  refine ⟨h1, ?_, ?_⟩
  · intro p e he mo hmem
    rw [h1] at hmem
    obtain ⟨a, ha, hfa⟩ := List.mem_filterMap.mp hmem
    cases hla : load a with
    | ok m2 =>
      simp [hla] at hfa
      obtain ⟨rfl, rfl⟩ := hfa
      rw [he] at hla
      exact Except.noConfusion hla
    | error e2 => simp [hla] at hfa
  · intro p mo hmem
    rw [h1] at hmem
    obtain ⟨a, ha, hfa⟩ := List.mem_filterMap.mp hmem
    cases hla : load a with
    | ok m2 =>
      simp [hla] at hfa
      obtain ⟨rfl, rfl⟩ := hfa
      exact ⟨ha, hla⟩
    | error e2 => simp [hla] at hfa

/-- Load oracle with one loadable provider and one whose import raises. -/
def loadOracle : String → Except String String := fun p =>
  if p == "@builtin/cpm-github" then .ok "githubModule" else .error "Cannot find module"

/-- Witness for C9: of two configured identifiers, the one that fails to
load is skipped and the overall result holds only the loaded one. -/
theorem getProviders_spec_witness :
    getProviders loadOracle (some ["@builtin/cpm-github", "cpm-broken"]) =
      [("@builtin/cpm-github", "githubModule")] ∧
    ("cpm-broken", "githubModule") ∉
      getProvidersList loadOracle ["@builtin/cpm-github", "cpm-broken"] := by
  constructor
  · have h := (getProviders_spec loadOracle ["@builtin/cpm-github", "cpm-broken"]).1
    show getProvidersList loadOracle ["@builtin/cpm-github", "cpm-broken"] = _
    rw [h]
    rfl
  · exact (getProviders_spec loadOracle ["@builtin/cpm-github", "cpm-broken"]).2.1
      "cpm-broken" "Cannot find module" rfl "githubModule"

/-!
Claim C10 — removing a provider touches nothing but that provider's
entries.
-/

/-- Settings lookup through an optional `providers` sub-object. -/
def lookupProvOpt (o : Option ProvMap) (k : String) : Option Settings :=
  o.bind (fun m => lookupEntry m k)

theorem lookupEntry_filter_ne {α : Type} (id k : String) (h : k ≠ id)
    (m : List (String × α)) :
    lookupEntry (m.filter (fun e => !(e.1 == id))) k = lookupEntry m k := by
  induction m with
  | nil => rfl
  | cons e t ih =>
    obtain ⟨a, v⟩ := e
    by_cases h1 : a = id
    · subst h1
      have h2 : ¬(a = k) := fun hh => h hh.symm
      simp [List.filter_cons, lookupEntry, h2, ih]
    · by_cases h3 : a = k <;> simp [List.filter_cons, h1, lookupEntry, h3, ih, h]

/-- Claim C10: removing provider `id` leaves, for every other provider
id, its settings object under `global.providers` and under every
namespace's `providers` unchanged; the namespace names (and each
namespace's other keys, and `global`'s other keys) are unchanged; and
the passcode field is unchanged. -/
theorem removeProvider_frame (c : Config) (id other : String) (h : other ≠ id) :
    lookupProvOpt (removeProvider c id).global.providers other =
      lookupProvOpt c.global.providers other ∧
    (removeProvider c id).global.others = c.global.others ∧
    (removeProvider c id).namespaces.map Prod.fst = c.namespaces.map Prod.fst ∧
    (∀ i (hi : i < c.namespaces.length) (hi2 : i < (removeProvider c id).namespaces.length),
      ((removeProvider c id).namespaces.get ⟨i, hi2⟩).1 = (c.namespaces.get ⟨i, hi⟩).1 ∧
      ((removeProvider c id).namespaces.get ⟨i, hi2⟩).2.others =
        (c.namespaces.get ⟨i, hi⟩).2.others ∧
      lookupProvOpt ((removeProvider c id).namespaces.get ⟨i, hi2⟩).2.providers other =
        lookupProvOpt (c.namespaces.get ⟨i, hi⟩).2.providers other) ∧
    (removeProvider c id).passcode = c.passcode := by
  refine ⟨?_, rfl, ?_, ?_, rfl⟩
  · cases hgp : c.global.providers with
    | none => simp [removeProvider, lookupProvOpt, hgp]
    | some m =>
      simp [removeProvider, lookupProvOpt, hgp, removeEntry, lookupEntry_filter_ne id other h]
  · simp [removeProvider]
  · intro i hi hi2
    have hg : (removeProvider c id).namespaces.get ⟨i, hi2⟩ =
        ((c.namespaces.get ⟨i, hi⟩).1,
          { providers := (c.namespaces.get ⟨i, hi⟩).2.providers.map (fun m => removeEntry m id)
            others := (c.namespaces.get ⟨i, hi⟩).2.others }) := by
      simp [removeProvider, List.get_map]
    rw [hg]
    refine ⟨rfl, rfl, ?_⟩
    cases hop : (c.namespaces.get ⟨i, hi⟩).2.providers with
    | none => simp [lookupProvOpt]
    | some m =>
      simp [lookupProvOpt, removeEntry, lookupEntry_filter_ne id other h]

/-- Document with two providers, used to witness removal framing. -/
def cfgTwoProv : Config :=
  ⟨.vNull,
   ⟨some [("cpm-github", [("token", .vStr "g")]), ("cpm-npm", [("token", .vStr "n")])], []⟩,
   [("@foo", ⟨some [("cpm-github", [("publish", .vBool true)]),
     ("cpm-npm", [("publish", .vBool false)])], []⟩)],
   some ["cpm-github", "cpm-npm"]⟩

/-- Witness for C10: after removing `cpm-npm`, the `cpm-github` settings
object is still found under `global.providers` and the namespace list is
unchanged. -/
theorem removeProvider_frame_witness :
    lookupProvOpt (removeProvider cfgTwoProv "cpm-npm").global.providers "cpm-github" =
      some [("token", Value.vStr "g")] ∧
    (removeProvider cfgTwoProv "cpm-npm").namespaces.map Prod.fst = ["@foo"] := by
  have h := removeProvider_frame cfgTwoProv "cpm-npm" "cpm-github" (by decide)
  constructor
  · rw [h.1]
    rfl
  · rw [h.2.2.1]
    rfl

end Cpm
